import Mathlib

/-!
Verification development for the DonationParserBot repository
(src/unnamed/part_000, src/forum_donation_scraper.js, src/telegram_bot.js).

The JavaScript source is shallowly embedded: strings are `String`/`List Char`,
JS numbers that hold monetary amounts are exact rationals (`Rat`), time stamps
and durations are `Nat` milliseconds, fallible operations return `Except`,
and the network / clock are explicit environments.

`parseDonationMessage` first collapses all whitespace runs to single spaces
(`messageText.trim().replace(/\s+/g, " ")`).  On such a collapsed string the
JS regex
  (ЕРИП|WebPay)\s+(\d{2}\.\d{2}\.\d{4})\s+(\d{2}:\d{2}:\d{2})\s+(.*?)\s+(\d+\.?\d*)\s+(\d+\.?\d*)\s+(\d+\.?\d*)\s+BYN
matches exactly along token boundaries: every \s+ consumes the single space
between two tokens, so the payment method is a token suffix, the date / time /
amount groups must each cover a whole token, the lazy (.*?) group covers the
shortest non-empty token run that leaves three amount tokens and a token
starting with BYN, and the leftmost match wins.  The embedding below works
directly on the token list and mirrors that operational behaviour.
-/

/-- Model of the JS whitespace class \s (the characters that occur in
practice; exotic Unicode space separators behave identically). -/
def isWsChar (c : Char) : Bool :=
  c = ' ' || c = '\t' || c = '\n' || c = '\r' || c = '\x0b' || c = '\x0c' || c = ' '

/-- JS \d — the ASCII digits. -/
def isDigitCh (c : Char) : Bool :=
  '0' ≤ c && c ≤ '9'

/-- Model of String.prototype.toLowerCase restricted to the alphabets the
program meets (ASCII Latin and Russian Cyrillic). -/
def jsToLower (c : Char) : Char :=
  if 'A' ≤ c && c ≤ 'Z' then Char.ofNat (c.toNat + 32)
  else if 'А' ≤ c && c ≤ 'Я' then Char.ofNat (c.toNat + 32)
  else if c = 'Ё' then 'ё'
  else c

/-- Model of String.prototype.trim. -/
def trimCh (l : List Char) : List Char :=
  ((l.dropWhile isWsChar).reverse.dropWhile isWsChar).reverse

/-- parseInt(_, 10) on a digit string. -/
def digitsToNat (l : List Char) : Nat :=
  l.foldl (fun n c => n * 10 + (c.toNat - '0'.toNat)) 0

/-- The whitespace-separated tokens of a string; `trim()` followed by
`replace(/\s+/g, " ")` turns a string into these tokens joined by single
spaces. -/
def wsTokens : List Char → List (List Char)
  | [] => []
  | [c] => if isWsChar c then [] else [[c]]
  | c :: d :: cs =>
    if isWsChar c then wsTokens (d :: cs)
    else if isWsChar d then [c] :: wsTokens (d :: cs)
    else
      match wsTokens (d :: cs) with
      | [] => [[c]]
      | t :: ts => (c :: t) :: ts

/-- Join tokens with single spaces. -/
def joinToks : List (List Char) → List Char
  | [] => []
  | [t] => t
  | t :: ts => t ++ ' ' :: joinToks ts

/-- `messageText.trim().replace(/\s+/g, " ")` from parseDonationMessage. -/
def collapseWs (s : String) : String :=
  String.mk (joinToks (wsTokens s.data))

/-- Does the token fully match \d{2}\.\d{2}\.\d{4} (the date group must be
followed by \s+, hence covers a whole token of the collapsed text)? -/
def isDateTok (t : List Char) : Bool :=
  match t with
  | [a, b, '.', c, d, '.', e, f, g, h] =>
    isDigitCh a && isDigitCh b && isDigitCh c && isDigitCh d &&
    isDigitCh e && isDigitCh f && isDigitCh g && isDigitCh h
  | _ => false

/-- Does the token fully match \d{2}:\d{2}:\d{2}? -/
def isTimeTok (t : List Char) : Bool :=
  match t with
  | [a, b, ':', c, d, ':', e, f] =>
    isDigitCh a && isDigitCh b && isDigitCh c && isDigitCh d &&
    isDigitCh e && isDigitCh f
  | _ => false

/-- Does the token fully match \d+\.?\d* (an amount group, which in the
collapsed text must cover a whole token)? -/
def isAmountTok (t : List Char) : Bool :=
  let ds := t.takeWhile isDigitCh
  let r := t.dropWhile isDigitCh
  !ds.isEmpty &&
    (r.isEmpty ||
      match r with
      | '.' :: fr => fr.all isDigitCh
      | _ => false)

/-- The (ЕРИП|WebPay) group followed by \s+ matches iff one of the two
literals is a suffix of the token; the capture is that literal. -/
def pmSuffix (t : List Char) : Option (List Char) :=
  if List.isSuffixOf "ЕРИП".data t then some "ЕРИП".data
  else if List.isSuffixOf "WebPay".data t then some "WebPay".data
  else none

/-- The captures of the donation regex. -/
structure MatchData where
  paymentMethod : List Char
  date : List Char
  time : List Char
  commentToks : List (List Char)
  gross : List Char
  taxAmt : List Char
  net : List Char
  deriving Repr, DecidableEq

/-- After the lazy comment group: \s+(\d+\.?\d*)\s+(\d+\.?\d*)\s+(\d+\.?\d*)\s+BYN —
three whole amount tokens and then a token starting with BYN. -/
def tailAmounts : List (List Char) → Option (List Char × List Char × List Char)
  | g :: t :: n :: b :: _ =>
    if isAmountTok g && isAmountTok t && isAmountTok n && List.isPrefixOf "BYN".data b
    then some (g, t, n) else none
  | _ => none

/-- The lazy (.*?)\s+ group: the comment takes tokens one at a time (shortest
first, as the lazy quantifier does) until the amounts-and-currency tail
matches the remaining tokens. -/
def commentSearch (acc : List (List Char)) :
    List (List Char) → Option (List (List Char) × List Char × List Char × List Char)
  | [] => none
  | c :: rest =>
    match tailAmounts rest with
    | some (g, t, n) => some (acc ++ [c], g, t, n)
    | none => commentSearch (acc ++ [c]) rest

/-- Leftmost match of the donation regex over the token list: try each token
as the payment-method token in order, succeed at the first position where the
whole pattern matches. -/
def matchToks : List (List Char) → Option MatchData
  | [] => none
  | pm :: rest =>
    match pmSuffix pm with
    | some p =>
      match rest with
      | d :: t :: rest2 =>
        if isDateTok d && isTimeTok t then
          match commentSearch [] rest2 with
          | some (ctoks, g, tx, n) => some ⟨p, d, t, ctoks, g, tx, n⟩
          | none => matchToks rest
        else matchToks rest
      | _ => matchToks rest
    | none => matchToks rest

/-- The comment post-processing regex replace
  comment.replace(/\s+\d+\.?\d*(\s+\d+\.?\d*)*\s*$/, "")
on a single-space-joined token list: it removes the maximal run of trailing
tokens that fully match \d+\.?\d* — the leading \s+ means the very first
token can never be removed (it has no preceding whitespace). -/
def stripTrailingNumericToks (l : List (List Char)) : List (List Char) :=
  match l with
  | [] => []
  | h :: t => h :: (t.reverse.dropWhile isAmountTok).reverse

/-- parseFloat on a string matching \d+\.?\d*, as an exact rational (the JS
double is the floating-point image of this value; the program compares and
sums these numbers, which the model does exactly). -/
def parseAmountQ (l : List Char) : Rat :=
  let ip := l.takeWhile isDigitCh
  match l.dropWhile isDigitCh with
  | '.' :: fr => (digitsToNat ip : Rat) + (digitsToNat fr : Rat) / ((10 : Rat) ^ fr.length)
  | _ => (digitsToNat ip : Rat)

/-- A parsed donation record (parseDonationMessage's return object). -/
structure Donation where
  paymentMethod : String
  date : String
  time : String
  dateTime : String
  comment : Option String
  grossAmount : Rat
  taxAmount : Rat
  netAmount : Rat
  currency : String
  deriving Repr, DecidableEq

/-- Build the record from the regex captures, mirroring lines 40–53 of
src/unnamed/part_000: trim the captured comment, strip trailing numeric
tokens, turn an empty result into null. -/
def mkDonation (m : MatchData) : Donation :=
  let ctoks := stripTrailingNumericToks m.commentToks
  let c := trimCh (joinToks ctoks)
  { paymentMethod := String.mk m.paymentMethod
    date := String.mk m.date
    time := String.mk m.time
    dateTime := String.mk (m.date ++ ' ' :: m.time)
    comment := if c.isEmpty then none else some (String.mk c)
    grossAmount := parseAmountQ m.gross
    taxAmount := parseAmountQ m.taxAmt
    netAmount := parseAmountQ m.net
    currency := "BYN" }

/-- parseDonationMessage (src/unnamed/part_000 lines 26–54): collapse
whitespace, run the donation regex, build the record or return null. -/
def parseDonationMessage (s : String) : Option Donation :=
  match matchToks (wsTokens s.data) with
  | some m => some (mkDonation m)
  | none => none

/-- Evaluation helper: parseAmountQ on a string with a decimal point. -/
theorem parseAmountQ_frac (l ip fr : List Char) (a b : Nat)
    (h1 : l.takeWhile isDigitCh = ip) (h2 : l.dropWhile isDigitCh = '.' :: fr)
    (h3 : digitsToNat ip = a) (h4 : digitsToNat fr = b) :
    parseAmountQ l = (a : Rat) + (b : Rat) / ((10 : Rat) ^ fr.length) := by
  simp only [parseAmountQ]
  rw [h1, h2]
  show (digitsToNat ip : Rat) + (digitsToNat fr : Rat) / ((10 : Rat) ^ fr.length) = _
  rw [h3, h4]

/-!  Sorting (scrapeAllDonations lines 164–168).  The comparator converts the
DD.MM.YYYY HH:MM:SS dateTime into a calendar value (the JS code rewrites it
to YYYY-MM-DD HH:MM:SS and builds a Date); for well-formed date-times the
millisecond value is ordered exactly like the digit vector
(Y, M, D, h, m, s), which chronoKey packs into one Nat. -/

/-- The calendar sort key of a dateTime string produced by the parser. -/
def chronoKey (s : String) : Nat :=
  match s.data with
  | [d1, d2, '.', m1, m2, '.', y1, y2, y3, y4, ' ',
     h1, h2, ':', mi1, mi2, ':', s1, s2] =>
    digitsToNat [y1, y2, y3, y4, m1, m2, d1, d2, h1, h2, mi1, mi2, s1, s2]
  | _ => 0

/-- One step of the stable sort: insert a record in front of the first
element whose key is not smaller (JS Array.prototype.sort is stable, and a
stable sort under a total comparator is unique, so insertion sort embeds
it). -/
def dInsert (a : Donation) : List Donation → List Donation
  | [] => [a]
  | b :: l =>
    if chronoKey a.dateTime ≤ chronoKey b.dateTime then a :: b :: l
    else b :: dInsert a l

/-- The donations.sort of scrapeAllDonations: stable ascending sort by the
parsed calendar date-time. -/
def sortDonations : List Donation → List Donation
  | [] => []
  | a :: l => dInsert a (sortDonations l)

/-- needle occurs as a contiguous substring of hay
(String.prototype.includes). -/
def containsTok (needle : List Char) : List Char → Bool
  | [] => needle.isEmpty
  | c :: t => List.isPrefixOf needle (c :: t) || containsTok needle t

/-- String.prototype.includes on strings. -/
def containsStr (needle hay : String) : Bool :=
  containsTok needle.data hay.data

/-- One term matches a comment:
d.comment.toLowerCase().includes(t.toLowerCase().trim()). -/
def termMatchesComment (t c : String) : Bool :=
  containsTok (trimCh (t.data.map jsToLower)) (c.data.map jsToLower)

/-- filterDonationsByComments (src/unnamed/part_000 lines 175–178); the
searchTerms argument is optional in JS, hence the Option; the JS predicate
d.comment && ... is falsy both for a null and for an empty-string comment. -/
def filterDonationsByComments (donations : List Donation)
    (searchTerms : Option (List String)) : List Donation :=
  match searchTerms with
  | none => donations
  | some ts =>
    if ts.isEmpty then donations
    else donations.filter (fun d =>
      match d.comment with
      | none => false
      | some c => !c.data.isEmpty && ts.any (fun t => termMatchesComment t c))

/-- The accumulator of calculateTotals. -/
structure Totals where
  count : Nat
  grossAmount : Rat
  taxTotal : Rat
  netAmount : Rat
  deriving Repr, DecidableEq

/-- calculateTotals (src/unnamed/part_000 lines 190–198). -/
def calculateTotals (donations : List Donation) : Totals :=
  donations.foldl
    (fun tot d =>
      { count := tot.count + 1
        grossAmount := tot.grossAmount + d.grossAmount
        taxTotal := tot.taxTotal + d.taxAmount
        netAmount := tot.netAmount + d.netAmount })
    { count := 0, grossAmount := 0, taxTotal := 0, netAmount := 0 }

/-!  Pagination (determineTotalPages, src/unnamed/part_000 lines 104–131).
The cheerio DOM queries are abstracted: a page's markup is represented by
the pagination link elements (text and optional href), the caption text of
.pagination .responsive-hide, and the post-content texts selected by
.postbody .content, .post .content.  The numeric logic is the source's. -/

/-- One a element under .pagination ul li. -/
structure PaginationLink where
  text : String
  href : Option String
  deriving Repr, DecidableEq

/-- Abstraction of one fetched HTML page. -/
structure PageMarkup where
  paginationLinks : List PaginationLink
  captionText : String
  postContents : List String
  deriving Repr, DecidableEq

/-- The link-text signal: trimmed text fully matching ^\d+$, via
parseInt. -/
def pageNumFromText (s : String) : Option Nat :=
  let t := trimCh s.data
  if !t.isEmpty && t.all isDigitCh then some (digitsToNat t) else none

/-- Drop an expected literal from the front of a list. -/
def dropLit : List Char → List Char → Option (List Char)
  | [], l => some l
  | _ :: _, [] => none
  | p :: ps, c :: cs => if p = c then dropLit ps cs else none

/-- The first match of /start=(\d+)/ in an href (leftmost occurrence of
start= followed by at least one digit; the capture is the maximal digit
run). -/
def startOffsetOf : List Char → Option Nat
  | [] => none
  | c :: t =>
    match dropLit "start=".data (c :: t) with
    | some rest =>
      let ds := rest.takeWhile isDigitCh
      if ds.isEmpty then startOffsetOf t else some (digitsToNat ds)
    | none => startOffsetOf t

/-- The first match of /(\d+)\s+сообщение/ in the pagination caption: a
maximal digit run, at least one whitespace, then the literal сообщение. -/
def captionCount : List Char → Option Nat
  | [] => none
  | c :: t =>
    if isDigitCh c then
      let ds := c :: t.takeWhile isDigitCh
      let rest := (t.dropWhile isDigitCh)
      if !(rest.takeWhile isWsChar).isEmpty
          && List.isPrefixOf "сообщение".data (rest.dropWhile isWsChar)
      then some (digitsToNat ds)
      else captionCount t
    else captionCount t

/-- The body of the each-loop over pagination links inside
determineTotalPages: raise maxPage by the literal page number in the link
text and by the page implied by a start= offset (floor(start/20) + 1). -/
def linkStep (mp : Nat) (l : PaginationLink) : Nat :=
  let mp1 := match pageNumFromText l.text with
    | some n => if mp < n then n else mp
    | none => mp
  match l.href with
  | some h =>
    match startOffsetOf h.data with
    | some v => if mp1 < v / 20 + 1 then v / 20 + 1 else mp1
    | none => mp1
  | none => mp1

/-- The each-loop over pagination links. -/
def linkFold (links : List PaginationLink) (maxPage : Nat) : Nat :=
  links.foldl linkStep maxPage

/-- determineTotalPages: fold the links starting from 1, then raise by
ceil(totalMessages / 20) from the caption. -/
def determineTotalPages (m : PageMarkup) : Nat :=
  let maxPage := linkFold m.paginationLinks 1
  match captionCount m.captionText.data with
  | some c => if maxPage < (c + 19) / 20 then (c + 19) / 20 else maxPage
  | none => maxPage

/-- The literal-page-number signal a pagination link contributes. -/
def textSignal (l : PaginationLink) : Option Nat :=
  pageNumFromText l.text

/-- The offset signal a pagination link contributes: the page implied by its
start= parameter as offset div 20 + 1. -/
def hrefSignal (l : PaginationLink) : Option Nat :=
  match l.href with
  | some h =>
    match startOffsetOf h.data with
    | some v => some (v / 20 + 1)
    | none => none
  | none => none

/-- Modelled from the spec's words (section 4.3) for the refinement claim:
the page count is the maximum across the three signals — highest literal
page number, highest page implied by an offset parameter
(offset div 20 + 1), and the rounded-up total-message count — and 1 when no
signal is present. -/
def specPageCount (m : PageMarkup) : Nat :=
  let textSignals := m.paginationLinks.filterMap textSignal
  let hrefSignals := m.paginationLinks.filterMap hrefSignal
  let countSignals := (captionCount m.captionText.data).toList.map (fun c => (c + 19) / 20)
  max 1 (max (textSignals.foldr max 0) (max (hrefSignals.foldr max 0) (countSignals.foldr max 0)))

/-- String.prototype.split(sep) for a one-character separator, on the
character list (keeps empty pieces). -/
def splitOnChar (sep : Char) (l : List Char) : List (List Char) :=
  l.foldr
    (fun c acc =>
      match acc with
      | [] => if c = sep then [[], []] else [[c]]
      | a :: as => if c = sep then [] :: a :: as else (c :: a) :: as)
    [[]]

/-- extractDonationsFromHtml (src/unnamed/part_000 lines 133–148): for each
post-content text mentioning a payment token, split into lines and parse
every trimmed line that mentions BYN and a payment token. -/
def extractDonationsFromHtml (m : PageMarkup) : List Donation :=
  (m.postContents.map (fun text =>
    if !(containsStr "ЕРИП" text) && !(containsStr "WebPay" text) then []
    else
      ((splitOnChar '\n' text.data).map (fun line => String.mk (trimCh line))).foldr
        (fun cleanLine acc =>
          if !cleanLine.isEmpty && containsStr "BYN" cleanLine
              && (containsStr "ЕРИП" cleanLine || containsStr "WebPay" cleanLine) then
            match parseDonationMessage cleanLine with
            | some p => p :: acc
            | none => acc
          else acc)
        [])).flatten

/-!  Fetch client (fetchPageHtml, src/unnamed/part_000 lines 68–102).  The
network is an environment mapping the attempt number to an outcome; the
model returns the result together with the list of backoff waits (in ms)
that were performed, so retry behaviour is observable. -/

/-- Outcome of one axios.get attempt: a body, or an error with an optional
code and a message. -/
inductive FetchOutcome where
  | ok (html : PageMarkup)
  | err (code : Option String) (msg : String)
  deriving Repr, DecidableEq

/-- The error thrown after the retry loop gives up. -/
structure FetchErr where
  pageNumber : Nat
  code : Option String
  message : String
  deriving Repr, DecidableEq

/-- retriableCodes plus the "socket hang up" message test (line 91). -/
def isRetriable (code : Option String) (msg : String) : Bool :=
  (match code with
   | some c => c = "ECONNRESET" || c = "ETIMEDOUT" || c = "EAI_AGAIN"
   | none => false) || containsStr "socket hang up" msg

/-- The friendly message of the final error (line 93):
message || code || "Неизвестная ошибка". -/
def friendlyMessage (pageNumber : Nat) (code : Option String) (msg : String) : String :=
  "Не удалось загрузить страницу форума (страница " ++ toString pageNumber ++ "). " ++
    (if msg.isEmpty then
      (match code with
       | some c => if c.isEmpty then "Неизвестная ошибка" else c
       | none => "Неизвестная ошибка")
     else msg)

/-- The retry loop body; fuel counts the remaining iterations of
for (attempt = 1; attempt <= maxRetries; attempt++), so running out of fuel
is the fall-through throw after the loop (line 101). -/
def fetchLoop (env : Nat → FetchOutcome) (maxRetries pageNumber : Nat) :
    Nat → Nat → List Nat → Except FetchErr PageMarkup × List Nat
  | _, 0, waits =>
    (Except.error ⟨pageNumber, none, "Неизвестная ошибка загрузки страницы"⟩, waits)
  | attempt, fuel + 1, waits =>
    match env attempt with
    | .ok html => (Except.ok html, waits)
    | .err code msg =>
      if attempt = maxRetries || !isRetriable code msg then
        (Except.error ⟨pageNumber, code, friendlyMessage pageNumber code msg⟩, waits)
      else
        fetchLoop env maxRetries pageNumber (attempt + 1) fuel (waits ++ [500 * attempt])

/-- fetchPageHtml: up to maxRetries attempts, backoff 500·attempt ms between
retriable failures. -/
def fetchPageHtml (env : Nat → FetchOutcome) (maxRetries pageNumber : Nat) :
    Except FetchErr PageMarkup × List Nat :=
  fetchLoop env maxRetries pageNumber 1 maxRetries []

/-!  Scrape orchestrator (scrapeAllDonations, src/unnamed/part_000 lines
150–173).  Date.now() readings and the per-page fetch results are an
explicit environment; the state carries this.donations and this._cache (the
cached xlsx artifact is a pure function of the cached donations and is not
repeated here).  The trace of fetched page numbers makes the network-access
count observable. -/

/-- The recognized constructor options after the JS defaulting
(options.x || default); a falsy (zero) input selects the default, so the
normalized numeric options are never zero. -/
structure ScrapeOptions where
  delay : Nat := 500
  maxPages : Option Nat := none
  cacheTtl : Nat := 1800000
  timeout : Nat := 30000
  maxRetries : Nat := 3
  deriving Repr, DecidableEq

/-- Constructor normalization of lines 11–19: n || default. -/
def normOpt (given : Option Nat) (dflt : Nat) : Nat :=
  match given with
  | some n => if n = 0 then dflt else n
  | none => dflt

/-- The ForumDonationScraper constructor's option merging. -/
def mkScrapeOptions (delay maxPages cacheTtl timeout maxRetries : Option Nat) :
    ScrapeOptions :=
  { delay := normOpt delay 500
    maxPages := match maxPages with
      | some n => if n = 0 then none else some n
      | none => none
    cacheTtl := normOpt cacheTtl 1800000
    timeout := normOpt timeout 30000
    maxRetries := normOpt maxRetries 3 }

/-- this._cache. -/
structure ScrapeCache where
  donations : Option (List Donation)
  timestamp : Nat
  deriving Repr, DecidableEq

/-- The mutable fields of a ForumDonationScraper instance. -/
structure ScraperState where
  donations : List Donation
  cache : ScrapeCache
  deriving Repr, DecidableEq

/-- The environment of one scrape cycle: the clock at entry, the clock at
the cache store, and the (already fetched-with-retry) result per page
number. -/
structure ScrapeEnv where
  now : Nat
  now2 : Nat
  fetchPage : Nat → Except FetchErr PageMarkup

/-- The for loop over pages 2..effectivePages: accumulate extracted
donations (this.donations.push) and the trace of fetched pages; stop with
the error of the first failing fetch.  fuel = effectivePages - 1. -/
def scrapePages (env : ScrapeEnv) :
    Nat → Nat → List Donation → List Nat →
    Except FetchErr (List Donation) × List Donation × List Nat
  | _, 0, acc, fetched => (Except.ok acc, acc, fetched)
  | pageNum, fuel + 1, acc, fetched =>
    match env.fetchPage pageNum with
    | .error e => (Except.error e, acc, fetched ++ [pageNum])
    | .ok m =>
      scrapePages env (pageNum + 1) fuel (acc ++ extractDonationsFromHtml m)
        (fetched ++ [pageNum])

/-- effectivePages (line 158): the resolved page count, capped by the
maxPages option when one is set. -/
def effPages (opts : ScrapeOptions) (totalPages : Nat) : Nat :=
  match opts.maxPages with
  | some mp => min totalPages mp
  | none => totalPages

/-- The cache-miss path of scrapeAllDonations: fetch page 1, resolve the
page count (capped by maxPages), fetch and extract the remaining pages,
sort, and replace the cache wholesale. -/
def scrapeFresh (opts : ScrapeOptions) (env : ScrapeEnv) (st : ScraperState) :
    Except FetchErr (List Donation) × ScraperState × List Nat :=
  match env.fetchPage 1 with
  | .error e => (Except.error e, st, [1])
  | .ok m1 =>
    match scrapePages env 2 (effPages opts (determineTotalPages m1) - 1)
        (extractDonationsFromHtml m1) [1] with
    | (.error e, acc, fetched) =>
      (Except.error e, { st with donations := acc }, fetched)
    | (.ok acc, _, fetched) =>
      let sorted := sortDonations acc
      (Except.ok sorted,
       { donations := sorted,
         cache := { donations := some sorted, timestamp := env.now2 } },
       fetched)

/-- scrapeAllDonations: return the cached list while its age is below the
TTL; otherwise run a fresh scrape cycle.  Returns the result, the new state
and the trace of fetched page numbers. -/
def scrapeAllDonations (opts : ScrapeOptions) (env : ScrapeEnv) (st : ScraperState) :
    Except FetchErr (List Donation) × ScraperState × List Nat :=
  match st.cache.donations with
  | some cached =>
    if env.now - st.cache.timestamp < opts.cacheTtl then
      (Except.ok cached, { st with donations := cached }, [])
    else scrapeFresh opts env st
  | none => scrapeFresh opts env st

/-!  Report building (processTelegramRequest, src/unnamed/part_000 lines
214–243), restricted to the computation after a successful scrape: term
parsing, filtering, totals, and the latest-date reduction over the full
this.donations. -/

/-- searchTermsString.split(",").map(trim).filter(nonempty). -/
def parseSearchTerms (s : String) : List String :=
  ((splitOnChar ',' s.data).map (fun t => String.mk (trimCh t))).filter
    (fun t => !t.data.isEmpty)

/-- The reduce at lines 227–232: the maximal parsed date-time over the whole
donation list (null on an empty list). -/
def latestDonationKey (donations : List Donation) : Option Nat :=
  donations.foldl
    (fun m d =>
      match m with
      | none => some (chronoKey d.dateTime)
      | some x => if x < chronoKey d.dateTime then some (chronoKey d.dateTime) else some x)
    none

/-- The success payload of processTelegramRequest (the parts with logic:
count and totals over the filtered subset, latest date over the full set). -/
structure ReportPayload where
  count : Nat
  grossAmount : Rat
  taxTotal : Rat
  netAmount : Rat
  latestKey : Option Nat
  filteredDonations : List Donation
  deriving Repr, DecidableEq

/-- The post-scrape computation of processTelegramRequest: filter by the
parsed terms, total the filtered subset, take the latest date from the full
set. -/
def buildTelegramReport (donations : List Donation) (searchTermsString : String) :
    ReportPayload :=
  let searchTerms := parseSearchTerms searchTermsString
  let filtered := filterDonationsByComments donations (some searchTerms)
  let totals := calculateTotals filtered
  { count := totals.count
    grossAmount := totals.grossAmount
    taxTotal := totals.taxTotal
    netAmount := totals.netAmount
    latestKey := latestDonationKey donations
    filteredDonations := filtered }

/-!  Helper lemmas about tokenization. -/

theorem wsTokens_wf : ∀ (l t : List Char), t ∈ wsTokens l →
    t ≠ [] ∧ ∀ c ∈ t, isWsChar c = false
  | [], t, ht => by simp [wsTokens] at ht
  | [c], t, ht => by
    by_cases hc : isWsChar c
    · simp [wsTokens, hc] at ht
    · simp [wsTokens, hc] at ht
      subst ht
      refine ⟨by simp, ?_⟩
      intro x hx
      rcases List.mem_singleton.mp hx with rfl
      simpa using hc
  | c :: d :: cs, t, ht => by
    by_cases hc : isWsChar c
    · rw [wsTokens, if_pos hc] at ht
      exact wsTokens_wf (d :: cs) t ht
    · rw [wsTokens, if_neg hc] at ht
      by_cases hd : isWsChar d
      · rw [if_pos hd] at ht
        rcases List.mem_cons.mp ht with rfl | h
        · refine ⟨by simp, ?_⟩
          intro x hx
          rcases List.mem_singleton.mp hx with rfl
          simpa using hc
        · exact wsTokens_wf (d :: cs) t h
      · rw [if_neg hd] at ht
        rcases hw : wsTokens (d :: cs) with _ | ⟨t0, ts⟩
        · rw [hw] at ht
          rcases List.mem_singleton.mp ht with rfl
          refine ⟨by simp, ?_⟩
          intro x hx
          rcases List.mem_singleton.mp hx with rfl
          simpa using hc
        · rw [hw] at ht
          rcases List.mem_cons.mp ht with rfl | h
          · have h0 := wsTokens_wf (d :: cs) t0 (by rw [hw]; exact List.mem_cons_self _ _)
            refine ⟨by simp, ?_⟩
            intro x hx
            rcases List.mem_cons.mp hx with rfl | hx
            · simpa using hc
            · exact h0.2 x hx
          · exact wsTokens_wf (d :: cs) t (by rw [hw]; exact List.mem_cons_of_mem _ h)

theorem wsTokens_nows : ∀ (t : List Char), t ≠ [] →
    (∀ c ∈ t, isWsChar c = false) → wsTokens t = [t]
  | [], h, _ => absurd rfl h
  | [c], _, hws => by
    simp [wsTokens, hws c (List.mem_singleton.mpr rfl)]
  | c :: d :: cs, _, hws => by
    have hc : isWsChar c = false := hws c (by simp)
    have hd : isWsChar d = false := hws d (by simp)
    have ih := wsTokens_nows (d :: cs) (by simp)
      (fun x hx => hws x (List.mem_cons_of_mem _ hx))
    rw [wsTokens, if_neg (by simp [hc]), if_neg (by simp [hd]), ih]

theorem wsTokens_space_cons (rest : List Char) :
    wsTokens (' ' :: rest) = wsTokens rest := by
  have hs : isWsChar ' ' = true := rfl
  cases rest with
  | nil => simp [wsTokens, hs]
  | cons d cs => rw [wsTokens, if_pos hs]

theorem wsTokens_tok_append : ∀ (t rest : List Char), t ≠ [] →
    (∀ c ∈ t, isWsChar c = false) →
    wsTokens (t ++ ' ' :: rest) = t :: wsTokens rest
  | [], _, h, _ => absurd rfl h
  | [c], rest, _, hws => by
    have hc : isWsChar c = false := hws c (by simp)
    have hs : isWsChar ' ' = true := rfl
    rw [List.singleton_append, wsTokens, if_neg (by simp [hc]), if_pos hs,
      wsTokens_space_cons]
  | c :: d :: cs, rest, _, hws => by
    have hc : isWsChar c = false := hws c (by simp)
    have hd : isWsChar d = false := hws d (by simp)
    have ih : wsTokens (d :: (cs ++ ' ' :: rest)) = (d :: cs) :: wsTokens rest :=
      wsTokens_tok_append (d :: cs) rest (by simp)
        (fun x hx => hws x (List.mem_cons_of_mem _ hx))
    show wsTokens (c :: d :: (cs ++ ' ' :: rest)) = (c :: d :: cs) :: wsTokens rest
    rw [wsTokens, if_neg (by simp [hc]), if_neg (by simp [hd]), ih]

theorem wsTokens_joinToks : ∀ (ts : List (List Char)),
    (∀ t ∈ ts, t ≠ [] ∧ ∀ c ∈ t, isWsChar c = false) →
    wsTokens (joinToks ts) = ts
  | [], _ => by simp [joinToks, wsTokens]
  | [t], h => by
    have ht := h t (by simp)
    rw [joinToks, wsTokens_nows t ht.1 ht.2]
  | t :: t' :: ts, h => by
    have ht := h t (by simp)
    have ih := wsTokens_joinToks (t' :: ts)
      (fun x hx => h x (List.mem_cons_of_mem _ hx))
    rw [joinToks, wsTokens_tok_append t _ ht.1 ht.2, ih]
    exact List.cons_ne_nil t' ts

/-- C10.  parseDonationMessage is invariant under whitespace collapsing: for
every input string s, parsing s and parsing the trimmed,
single-space-collapsed form of s (collapseWs s, which is exactly
messageText.trim().replace(/\s+/g, " ")) produce the same result — the same
record or the same rejection — so the already-collapsed-input precondition
is not required at the interface. -/
theorem parseDonationMessage_collapseWs_invariant (s : String) :
    parseDonationMessage (collapseWs s) = parseDonationMessage s := by
  unfold parseDonationMessage collapseWs
  rw [show (String.mk (joinToks (wsTokens s.data))).data = joinToks (wsTokens s.data)
      from rfl,
    wsTokens_joinToks (wsTokens s.data) (fun t ht => wsTokens_wf s.data t ht)]

/-- Inversion of parseDonationMessage: an accepted line comes from a
successful regex match, and the record is built from its captures. -/
theorem parseDonationMessage_inv (s : String) (r : Donation)
    (h : parseDonationMessage s = some r) :
    ∃ m, matchToks (wsTokens s.data) = some m ∧ r = mkDonation m := by
  unfold parseDonationMessage at h
  rcases hm : matchToks (wsTokens s.data) with _ | m
  · rw [hm] at h
    exact absurd h (by simp)
  · rw [hm] at h
    exact ⟨m, rfl, (Option.some.injEq _ _ ▸ h).symm⟩

/-- C1.  Whenever the donation regex matches (the line has the fixed shape
payment-method, DD.MM.YYYY date, HH:MM:SS time, free text, three decimal
amounts, the literal BYN), parseDonationMessage returns a record whose
grossAmount, tax and netAmount are exactly the numeric values of the three
matched amount substrings; in particular the concrete line
"ЕРИП 13.01.2025 13:46:08 К.Ю. (лошади сено) 30.00 0.06 29.94 BYN" parses
to the expected record with grossAmount 30, tax 0.06 and netAmount 29.94. -/
theorem parseDonationMessage_amounts_exact :
    (∀ (s : String) (m : MatchData), matchToks (wsTokens s.data) = some m →
      ∃ r, parseDonationMessage s = some r ∧
        r.grossAmount = parseAmountQ m.gross ∧
        r.taxAmount = parseAmountQ m.taxAmt ∧
        r.netAmount = parseAmountQ m.net ∧
        r.paymentMethod = String.mk m.paymentMethod ∧
        r.date = String.mk m.date ∧ r.time = String.mk m.time ∧
        r.currency = "BYN") ∧
    parseDonationMessage "ЕРИП 13.01.2025 13:46:08 К.Ю. (лошади сено) 30.00 0.06 29.94 BYN" =
      some { paymentMethod := "ЕРИП", date := "13.01.2025", time := "13:46:08",
             dateTime := "13.01.2025 13:46:08", comment := some "К.Ю. (лошади сено)",
             grossAmount := 30, taxAmount := 6/100, netAmount := 2994/100,
             currency := "BYN" } := by
  constructor
  · intro s m hm
    refine ⟨mkDonation m, ?_, rfl, rfl, rfl, rfl, rfl, rfl, rfl⟩
    unfold parseDonationMessage
    rw [hm]
  · have hm : matchToks (wsTokens ("ЕРИП 13.01.2025 13:46:08 К.Ю. (лошади сено) 30.00 0.06 29.94 BYN").data) =
        some ⟨"ЕРИП".data, "13.01.2025".data, "13:46:08".data,
              ["К.Ю.".data, "(лошади".data, "сено)".data],
              "30.00".data, "0.06".data, "29.94".data⟩ := by decide
    unfold parseDonationMessage
    rw [hm]
    show some (mkDonation _) = _
    unfold mkDonation
    simp only [Option.some.injEq, Donation.mk.injEq]
    refine ⟨by decide, by decide, by decide, by decide, by decide, ?_, ?_, ?_, trivial⟩
    · rw [parseAmountQ_frac _ ['3','0'] ['0','0'] 30 0 (by decide) (by decide) (by decide) (by decide)]
      norm_num
    · rw [parseAmountQ_frac _ ['0'] ['0','6'] 0 6 (by decide) (by decide) (by decide) (by decide)]
      norm_num
    · rw [parseAmountQ_frac _ ['2','9'] ['9','4'] 29 94 (by decide) (by decide) (by decide) (by decide)]
      norm_num

/-- C1 witness: the general part applied at the concrete scenario line. -/
theorem parseDonationMessage_amounts_exact_witness :
    ∃ r, parseDonationMessage "ЕРИП 13.01.2025 13:46:08 К.Ю. (лошади сено) 30.00 0.06 29.94 BYN" = some r ∧
      r.grossAmount = parseAmountQ "30.00".data ∧
      r.taxAmount = parseAmountQ "0.06".data ∧
      r.netAmount = parseAmountQ "29.94".data ∧
      r.paymentMethod = String.mk "ЕРИП".data ∧
      r.date = String.mk "13.01.2025".data ∧ r.time = String.mk "13:46:08".data ∧
      r.currency = "BYN" :=
  parseDonationMessage_amounts_exact.1
    "ЕРИП 13.01.2025 13:46:08 К.Ю. (лошади сено) 30.00 0.06 29.94 BYN"
    ⟨"ЕРИП".data, "13.01.2025".data, "13:46:08".data,
     ["К.Ю.".data, "(лошади".data, "сено)".data],
     "30.00".data, "0.06".data, "29.94".data⟩ (by decide)

/-- C2.  For every line accepted by parseDonationMessage the comment equals
the captured free-text span (the tokens between the timestamp and the first
amount) with the trailing run of numeric-looking tokens stripped; an empty
strip result would be recorded as null (None), and the comment is never the
empty string. -/
theorem parseDonationMessage_comment_spec (s : String) (r : Donation)
    (h : parseDonationMessage s = some r) :
    ∃ m, matchToks (wsTokens s.data) = some m ∧
      r.comment =
        (if (trimCh (joinToks (stripTrailingNumericToks m.commentToks))).isEmpty
         then none
         else some (String.mk (trimCh (joinToks (stripTrailingNumericToks m.commentToks))))) ∧
      r.comment ≠ some "" := by
  rcases parseDonationMessage_inv s r h with ⟨m, hm, hr⟩
  subst hr
  refine ⟨m, hm, rfl, ?_⟩
  have hmc : (mkDonation m).comment =
      (if (trimCh (joinToks (stripTrailingNumericToks m.commentToks))).isEmpty
       then none
       else some (String.mk (trimCh (joinToks (stripTrailingNumericToks m.commentToks))))) := rfl
  rw [hmc]
  by_cases hc : (trimCh (joinToks (stripTrailingNumericToks m.commentToks))).isEmpty
  · rw [if_pos hc]
    simp
  · rw [if_neg hc]
    intro hcontra
    have h2 : String.mk (trimCh (joinToks (stripTrailingNumericToks m.commentToks))) = "" :=
      Option.some.inj hcontra
    have h3 : trimCh (joinToks (stripTrailingNumericToks m.commentToks)) = [] :=
      congrArg String.data h2
    rw [h3] at hc
    exact hc rfl

/-- C2 witness: a concrete line whose captured span carries trailing numeric
garbage; applying the claim theorem at it. -/
theorem parseDonationMessage_comment_spec_witness :
    ∃ r, parseDonationMessage "WebPay 01.02.2025 08:00:00 корм 12 30.00 0.06 29.94 BYN" = some r ∧
      ∃ m, matchToks (wsTokens ("WebPay 01.02.2025 08:00:00 корм 12 30.00 0.06 29.94 BYN").data) = some m ∧
        r.comment =
          (if (trimCh (joinToks (stripTrailingNumericToks m.commentToks))).isEmpty
           then none
           else some (String.mk (trimCh (joinToks (stripTrailingNumericToks m.commentToks))))) ∧
        r.comment ≠ some "" := by
  have h : parseDonationMessage "WebPay 01.02.2025 08:00:00 корм 12 30.00 0.06 29.94 BYN" =
      some (mkDonation ⟨"WebPay".data, "01.02.2025".data, "08:00:00".data,
        ["корм".data, "12".data], "30.00".data, "0.06".data, "29.94".data⟩) := by
    unfold parseDonationMessage
    rw [show matchToks (wsTokens ("WebPay 01.02.2025 08:00:00 корм 12 30.00 0.06 29.94 BYN").data) =
        some ⟨"WebPay".data, "01.02.2025".data, "08:00:00".data,
          ["корм".data, "12".data], "30.00".data, "0.06".data, "29.94".data⟩ from by decide]
  exact ⟨_, h, parseDonationMessage_comment_spec _ _ h⟩

/-!  Helper lemmas about the stable sort. -/

theorem dInsert_perm (a : Donation) : ∀ l : List Donation,
    List.Perm (dInsert a l) (a :: l)
  | [] => List.Perm.refl _
  | b :: l => by
    rw [dInsert]
    by_cases hab : chronoKey a.dateTime ≤ chronoKey b.dateTime
    · rw [if_pos hab]
    · rw [if_neg hab]
      exact List.Perm.trans (List.Perm.cons b (dInsert_perm a l)) (List.Perm.swap a b l)

theorem sortDonations_perm : ∀ l : List Donation, List.Perm (sortDonations l) l
  | [] => List.Perm.refl _
  | a :: l => by
    rw [sortDonations]
    exact List.Perm.trans (dInsert_perm a (sortDonations l))
      (List.Perm.cons a (sortDonations_perm l))

theorem dInsert_sorted (a : Donation) : ∀ l : List Donation,
    List.Sorted (fun x y => chronoKey x.dateTime ≤ chronoKey y.dateTime) l →
    List.Sorted (fun x y => chronoKey x.dateTime ≤ chronoKey y.dateTime) (dInsert a l)
  | [], _ => List.sorted_singleton a
  | b :: l, h => by
    rw [dInsert]
    rcases List.sorted_cons.mp h with ⟨hb, hl⟩
    by_cases hab : chronoKey a.dateTime ≤ chronoKey b.dateTime
    · rw [if_pos hab]
      refine List.sorted_cons.mpr ⟨?_, h⟩
      intro x hx
      rcases List.mem_cons.mp hx with rfl | hx
      · exact hab
      · exact le_trans hab (hb x hx)
    · rw [if_neg hab]
      refine List.sorted_cons.mpr ⟨?_, dInsert_sorted a l hl⟩
      intro x hx
      rcases List.mem_cons.mp ((dInsert_perm a l).mem_iff.mp hx) with rfl | hx
      · exact Nat.le_of_not_le hab
      · exact hb x hx

theorem sortDonations_sorted : ∀ l : List Donation,
    List.Sorted (fun x y => chronoKey x.dateTime ≤ chronoKey y.dateTime) (sortDonations l)
  | [] => List.sorted_nil
  | a :: l => by
    rw [sortDonations]
    exact dInsert_sorted a (sortDonations l) (sortDonations_sorted l)

theorem dInsert_filter_eqkey (a : Donation) (k : Nat)
    (hk : chronoKey a.dateTime = k) : ∀ l : List Donation,
    (dInsert a l).filter (fun d => chronoKey d.dateTime == k) =
      a :: l.filter (fun d => chronoKey d.dateTime == k)
  | [] => by simp [dInsert, hk]
  | b :: l => by
    rw [dInsert]
    by_cases hab : chronoKey a.dateTime ≤ chronoKey b.dateTime
    · rw [if_pos hab]
      simp [List.filter_cons, hk]
    · rw [if_neg hab]
      have hbk : (chronoKey b.dateTime == k) = false := by
        refine beq_eq_false_iff_ne.mpr ?_
        rw [← hk]
        exact Nat.ne_of_lt (Nat.lt_of_not_le hab)
      rw [List.filter_cons, hbk]
      simp only [Bool.false_eq_true, if_false]
      rw [dInsert_filter_eqkey a k hk l, List.filter_cons, hbk]
      simp only [Bool.false_eq_true, if_false]

theorem dInsert_filter_nekey (a : Donation) (k : Nat)
    (hk : chronoKey a.dateTime ≠ k) : ∀ l : List Donation,
    (dInsert a l).filter (fun d => chronoKey d.dateTime == k) =
      l.filter (fun d => chronoKey d.dateTime == k)
  | [] => by simp [dInsert, hk]
  | b :: l => by
    have hak : (chronoKey a.dateTime == k) = false := beq_eq_false_iff_ne.mpr hk
    rw [dInsert]
    by_cases hab : chronoKey a.dateTime ≤ chronoKey b.dateTime
    · rw [if_pos hab, List.filter_cons, hak]
      simp only [Bool.false_eq_true, if_false]
    · rw [if_neg hab, List.filter_cons, List.filter_cons,
        dInsert_filter_nekey a k hk l]

theorem sortDonations_filter (k : Nat) : ∀ l : List Donation,
    (sortDonations l).filter (fun d => chronoKey d.dateTime == k) =
      l.filter (fun d => chronoKey d.dateTime == k)
  | [] => rfl
  | a :: l => by
    rw [sortDonations, List.filter_cons]
    by_cases hk : chronoKey a.dateTime = k
    · rw [dInsert_filter_eqkey a k hk (sortDonations l), sortDonations_filter k l]
      have : (chronoKey a.dateTime == k) = true := beq_iff_eq.mpr hk
      rw [this]
      simp only [if_true]
    · rw [dInsert_filter_nekey a k hk (sortDonations l), sortDonations_filter k l]
      have : (chronoKey a.dateTime == k) = false := beq_eq_false_iff_ne.mpr hk
      rw [this]
      simp only [Bool.false_eq_true, if_false]

/-- C3.  The sort of scrapeAllDonations is a stable total ascending sort by
the true calendar date-time parsed from the DD.MM.YYYY HH:MM:SS dateTime:
the output is sorted by chronoKey and is a permutation of the input, records
with equal keys keep their relative order (the filter characterization of
stability), the key order is total, and chronological order wins over
lexical string order — "15.01.2025 00:00:00" is lexically larger but
chronologically earlier than "01.02.2025 00:00:00", and the sort puts it
first. -/
theorem sortDonations_spec :
    (∀ l : List Donation,
      List.Sorted (fun a b => chronoKey a.dateTime ≤ chronoKey b.dateTime)
        (sortDonations l)) ∧
    (∀ l : List Donation, List.Perm (sortDonations l) l) ∧
    (∀ (l : List Donation) (k : Nat),
      (sortDonations l).filter (fun d => chronoKey d.dateTime == k) =
        l.filter (fun d => chronoKey d.dateTime == k)) ∧
    (∀ a b : Donation,
      chronoKey a.dateTime ≤ chronoKey b.dateTime ∨
      chronoKey b.dateTime ≤ chronoKey a.dateTime) ∧
    (("01.02.2025 00:00:00".data < "15.01.2025 00:00:00".data) ∧
      chronoKey "15.01.2025 00:00:00" < chronoKey "01.02.2025 00:00:00" ∧
      sortDonations
        [{ paymentMethod := "ЕРИП", date := "01.02.2025", time := "00:00:00",
           dateTime := "01.02.2025 00:00:00", comment := none,
           grossAmount := 1, taxAmount := 0, netAmount := 1, currency := "BYN" },
         { paymentMethod := "ЕРИП", date := "15.01.2025", time := "00:00:00",
           dateTime := "15.01.2025 00:00:00", comment := none,
           grossAmount := 2, taxAmount := 0, netAmount := 2, currency := "BYN" }] =
        [{ paymentMethod := "ЕРИП", date := "15.01.2025", time := "00:00:00",
           dateTime := "15.01.2025 00:00:00", comment := none,
           grossAmount := 2, taxAmount := 0, netAmount := 2, currency := "BYN" },
         { paymentMethod := "ЕРИП", date := "01.02.2025", time := "00:00:00",
           dateTime := "01.02.2025 00:00:00", comment := none,
           grossAmount := 1, taxAmount := 0, netAmount := 1, currency := "BYN" }]) :=
  ⟨sortDonations_sorted, sortDonations_perm,
   fun l k => sortDonations_filter k l,
   fun a b => Nat.le_total _ _,
   by decide, by decide, by decide⟩

/-- C4.  On any record set whose comments are never the empty string (an
invariant of the parser, see the C2 theorem), filterDonationsByComments
keeps a record iff its comment exists and some supplied term, trimmed and
lowercased, occurs case-insensitively in the comment; records with a null
comment never match; an absent (null) or empty term list returns the
donation list unchanged. -/
theorem filterDonationsByComments_spec (l : List Donation) (ts : List String)
    (hts : ts ≠ []) (hcomm : ∀ d ∈ l, d.comment ≠ some "") :
    filterDonationsByComments l none = l ∧
    filterDonationsByComments l (some []) = l ∧
    (∀ d, d ∈ filterDonationsByComments l (some ts) ↔
      d ∈ l ∧ ∃ c, d.comment = some c ∧ ∃ t ∈ ts, termMatchesComment t c = true) := by
  refine ⟨rfl, rfl, ?_⟩
  intro d
  rw [filterDonationsByComments, if_neg (by simpa using hts)]
  rw [List.mem_filter]
  constructor
  · rintro ⟨hdl, hp⟩
    refine ⟨hdl, ?_⟩
    rcases hc : d.comment with _ | c
    · rw [hc] at hp
      exact absurd hp (by simp)
    · rw [hc] at hp
      rcases Bool.and_eq_true_iff.mp hp with ⟨_, hany⟩
      exact ⟨c, rfl, List.any_eq_true.mp hany⟩
  · rintro ⟨hdl, c, hc, ht, htm, hmatch⟩
    refine ⟨hdl, ?_⟩
    rw [hc]
    have hcne : c ≠ "" := fun heq => (hcomm d hdl) (by rw [hc, heq])
    have hne : c.data.isEmpty = false := by
      rcases hd : c.data with _ | ⟨x, xs⟩
      · exact absurd (String.ext (by rw [hd])) hcne
      · rfl
    rw [Bool.and_eq_true_iff]
    exact ⟨by rw [hne]; rfl, List.any_eq_true.mpr ⟨ht, htm, hmatch⟩⟩

/-- C4 witness: the spec's concrete scenario — comments "сено для лошади"
and "на корм коту", filtered by the single term "лошад": the first record
passes, the second does not, and the empty/absent filters leave the list
unchanged. -/
theorem filterDonationsByComments_spec_witness :
    (filterDonationsByComments
        [{ paymentMethod := "ЕРИП", date := "13.01.2025", time := "13:46:08",
           dateTime := "13.01.2025 13:46:08", comment := some "сено для лошади",
           grossAmount := 30, taxAmount := 0, netAmount := 30, currency := "BYN" },
         { paymentMethod := "WebPay", date := "14.01.2025", time := "09:00:00",
           dateTime := "14.01.2025 09:00:00", comment := some "на корм коту",
           grossAmount := 10, taxAmount := 0, netAmount := 10, currency := "BYN" }]
        none =
      [{ paymentMethod := "ЕРИП", date := "13.01.2025", time := "13:46:08",
         dateTime := "13.01.2025 13:46:08", comment := some "сено для лошади",
         grossAmount := 30, taxAmount := 0, netAmount := 30, currency := "BYN" },
       { paymentMethod := "WebPay", date := "14.01.2025", time := "09:00:00",
         dateTime := "14.01.2025 09:00:00", comment := some "на корм коту",
         grossAmount := 10, taxAmount := 0, netAmount := 10, currency := "BYN" }]) ∧
    ({ paymentMethod := "ЕРИП", date := "13.01.2025", time := "13:46:08",
       dateTime := "13.01.2025 13:46:08", comment := some "сено для лошади",
       grossAmount := 30, taxAmount := 0, netAmount := 30, currency := "BYN" } ∈
      filterDonationsByComments
        [{ paymentMethod := "ЕРИП", date := "13.01.2025", time := "13:46:08",
           dateTime := "13.01.2025 13:46:08", comment := some "сено для лошади",
           grossAmount := 30, taxAmount := 0, netAmount := 30, currency := "BYN" },
         { paymentMethod := "WebPay", date := "14.01.2025", time := "09:00:00",
           dateTime := "14.01.2025 09:00:00", comment := some "на корм коту",
           grossAmount := 10, taxAmount := 0, netAmount := 10, currency := "BYN" }]
        (some ["лошад"])) ∧
    ({ paymentMethod := "WebPay", date := "14.01.2025", time := "09:00:00",
       dateTime := "14.01.2025 09:00:00", comment := some "на корм коту",
       grossAmount := 10, taxAmount := 0, netAmount := 10, currency := "BYN" } ∉
      filterDonationsByComments
        [{ paymentMethod := "ЕРИП", date := "13.01.2025", time := "13:46:08",
           dateTime := "13.01.2025 13:46:08", comment := some "сено для лошади",
           grossAmount := 30, taxAmount := 0, netAmount := 30, currency := "BYN" },
         { paymentMethod := "WebPay", date := "14.01.2025", time := "09:00:00",
           dateTime := "14.01.2025 09:00:00", comment := some "на корм коту",
           grossAmount := 10, taxAmount := 0, netAmount := 10, currency := "BYN" }]
        (some ["лошад"])) := by
  refine ⟨(filterDonationsByComments_spec _ ["лошад"] (by simp) (by decide)).1, ?_, ?_⟩
  · refine ((filterDonationsByComments_spec _ ["лошад"] (by simp) (by decide)).2.2 _).mpr
      ⟨by simp, "сено для лошади", rfl, "лошад", by simp, by decide⟩
  · intro hmem
    rcases ((filterDonationsByComments_spec _ ["лошад"] (by simp) (by decide)).2.2 _).mp hmem
      with ⟨_, c, hc, t, htm, hmatch⟩
    rcases Option.some.inj hc with rfl
    rcases List.mem_singleton.mp htm with rfl
    exact absurd hmatch (by decide)

/-- C8.  The report's latest date is the maximum calendar date-time over the
entire unfiltered donation list, while the count and the three totals of the
same report are computed over the keyword-filtered subset only; the concrete
instance shows the asymmetry — the record carrying the latest date is
excluded by the filter, yet still determines latestKey. -/
theorem buildTelegramReport_latest_unfiltered :
    (∀ (donations : List Donation) (s : String),
      (buildTelegramReport donations s).latestKey = latestDonationKey donations ∧
      (buildTelegramReport donations s).count =
        (calculateTotals (filterDonationsByComments donations
          (some (parseSearchTerms s)))).count ∧
      (buildTelegramReport donations s).grossAmount =
        (calculateTotals (filterDonationsByComments donations
          (some (parseSearchTerms s)))).grossAmount ∧
      (buildTelegramReport donations s).taxTotal =
        (calculateTotals (filterDonationsByComments donations
          (some (parseSearchTerms s)))).taxTotal ∧
      (buildTelegramReport donations s).netAmount =
        (calculateTotals (filterDonationsByComments donations
          (some (parseSearchTerms s)))).netAmount ∧
      (buildTelegramReport donations s).filteredDonations =
        filterDonationsByComments donations (some (parseSearchTerms s))) ∧
    ((buildTelegramReport
        [{ paymentMethod := "ЕРИП", date := "13.01.2025", time := "13:46:08",
           dateTime := "13.01.2025 13:46:08", comment := some "сено для лошади",
           grossAmount := 30, taxAmount := 0, netAmount := 30, currency := "BYN" },
         { paymentMethod := "WebPay", date := "15.02.2025", time := "10:00:00",
           dateTime := "15.02.2025 10:00:00", comment := some "на корм коту",
           grossAmount := 10, taxAmount := 0, netAmount := 10, currency := "BYN" }]
        "лошад").filteredDonations =
      [{ paymentMethod := "ЕРИП", date := "13.01.2025", time := "13:46:08",
         dateTime := "13.01.2025 13:46:08", comment := some "сено для лошади",
         grossAmount := 30, taxAmount := 0, netAmount := 30, currency := "BYN" }] ∧
     (buildTelegramReport
        [{ paymentMethod := "ЕРИП", date := "13.01.2025", time := "13:46:08",
           dateTime := "13.01.2025 13:46:08", comment := some "сено для лошади",
           grossAmount := 30, taxAmount := 0, netAmount := 30, currency := "BYN" },
         { paymentMethod := "WebPay", date := "15.02.2025", time := "10:00:00",
           dateTime := "15.02.2025 10:00:00", comment := some "на корм коту",
           grossAmount := 10, taxAmount := 0, netAmount := 10, currency := "BYN" }]
        "лошад").latestKey = some (chronoKey "15.02.2025 10:00:00") ∧
     chronoKey "13.01.2025 13:46:08" < chronoKey "15.02.2025 10:00:00") :=
  ⟨fun donations s => ⟨rfl, rfl, rfl, rfl, rfl, rfl⟩,
   by decide, by decide, by decide⟩

/-!  Helper lemmas for the pagination resolver. -/

theorem ifMax (a b : Nat) : (if a < b then b else a) = max a b := by
  split <;> omega

theorem linkStep_max (mp : Nat) (l : PaginationLink) :
    linkStep mp l = max mp (max ((textSignal l).getD 0) ((hrefSignal l).getD 0)) := by
  unfold linkStep textSignal hrefSignal
  rcases ht : pageNumFromText l.text with _ | n <;> rcases hh : l.href with _ | h
  · simp only [ht, hh, Option.getD_none]
    simp
  · rcases hs : startOffsetOf h.data with _ | v <;>
      simp only [ht, hh, hs, Option.getD_none, Option.getD_some, ifMax] <;>
      simp [Nat.max_assoc, Nat.max_zero, Nat.zero_max]
  · simp only [ht, hh, Option.getD_none, Option.getD_some, ifMax]
    simp [Nat.max_assoc, Nat.max_zero, Nat.zero_max]
  · rcases hs : startOffsetOf h.data with _ | v <;>
      simp only [ht, hh, hs, Option.getD_none, Option.getD_some, ifMax] <;>
      simp [Nat.max_assoc, Nat.max_zero, Nat.zero_max]

theorem linkFold_max : ∀ (links : List PaginationLink) (a : Nat),
    linkFold links a =
      max a (max ((links.filterMap textSignal).foldr max 0)
        ((links.filterMap hrefSignal).foldr max 0))
  | [], a => by simp [linkFold]
  | l :: ls, a => by
    have h1 : linkFold (l :: ls) a = linkFold ls (linkStep a l) := rfl
    rw [h1, linkFold_max ls (linkStep a l), linkStep_max]
    rcases ht : textSignal l with _ | n <;> rcases hh : hrefSignal l with _ | p <;>
      simp only [List.filterMap_cons, ht, hh, Option.getD_none, Option.getD_some,
        List.foldr_cons] <;>
      simp [Nat.max_assoc, Nat.max_zero, Nat.zero_max, Nat.max_comm, Nat.max_left_comm]

/-- C9.  determineTotalPages equals the spec-side specPageCount: the maximum
across the three pagination signals (highest literal page number in link
texts, highest page implied by a start= offset, rounded-up total-message
count), defaulting to 1; it is a total function, and on markup with no
pagination UI at all (no links, no caption match) it returns 1. -/
theorem determineTotalPages_spec :
    (∀ m : PageMarkup, determineTotalPages m = specPageCount m) ∧
    determineTotalPages { paginationLinks := [], captionText := "", postContents := [] } = 1 ∧
    determineTotalPages
      { paginationLinks := [{ text := "Далее", href := some "./viewtopic.php?f=15&t=54158" }],
        captionText := "нет данных", postContents := [] } = 1 := by
  refine ⟨?_, by decide, by decide⟩
  intro m
  unfold determineTotalPages specPageCount
  rw [linkFold_max]
  rcases hc : captionCount m.captionText.data with _ | c
  · simp only [hc, Option.toList_none, List.map_nil, List.foldr_nil]
    simp [Nat.max_assoc, Nat.max_zero, Nat.zero_max, Nat.max_comm, Nat.max_left_comm]
  · simp only [hc, Option.toList_some, List.map_cons, List.map_nil, List.foldr_cons,
      List.foldr_nil, ifMax]
    simp [Nat.max_assoc, Nat.max_zero, Nat.zero_max, Nat.max_comm, Nat.max_left_comm]

/-!  Fetch-retry lemmas. -/

theorem fetchLoop_step_ok (env : Nat → FetchOutcome) (mr page attempt fuel : Nat)
    (waits : List Nat) (h : PageMarkup) (ha : env attempt = .ok h) :
    fetchLoop env mr page attempt (fuel + 1) waits = (Except.ok h, waits) := by
  rw [fetchLoop]
  simp only [ha]

theorem fetchLoop_step_stop (env : Nat → FetchOutcome) (mr page attempt fuel : Nat)
    (waits : List Nat) (c : Option String) (m : String) (ha : env attempt = .err c m)
    (hstop : attempt = mr ∨ isRetriable c m = false) :
    fetchLoop env mr page attempt (fuel + 1) waits =
      (Except.error ⟨page, c, friendlyMessage page c m⟩, waits) := by
  rw [fetchLoop]
  simp only [ha]
  rcases hstop with rfl | hrf
  · simp
  · simp [hrf]

theorem fetchLoop_step_retriable (env : Nat → FetchOutcome) (mr page attempt fuel : Nat)
    (waits : List Nat) (c : Option String) (m : String) (ha : env attempt = .err c m)
    (hr : isRetriable c m = true) (hne : attempt ≠ mr) :
    fetchLoop env mr page attempt (fuel + 1) waits =
      fetchLoop env mr page (attempt + 1) fuel (waits ++ [500 * attempt]) := by
  rw [fetchLoop]
  simp only [ha]
  rw [if_neg (by simp [hr, hne])]

theorem fetchLoop_ok (env : Nat → FetchOutcome) (mr page : Nat) :
    ∀ (fuel attempt : Nat) (waits : List Nat) (h : PageMarkup),
    (fetchLoop env mr page attempt fuel waits).1 = Except.ok h →
    ∃ a, attempt ≤ a ∧ a < attempt + fuel ∧ env a = .ok h
  | 0, attempt, waits, h => by
    intro hres
    exact absurd hres (by simp [fetchLoop])
  | fuel + 1, attempt, waits, h => by
    intro hres
    cases ha : env attempt with
    | ok html =>
      rw [fetchLoop_step_ok env mr page attempt fuel waits html ha] at hres
      refine ⟨attempt, Nat.le_refl _, by omega, ?_⟩
      rw [ha]
      simp only [Except.ok.injEq] at hres
      rw [hres]
    | err code msg =>
      by_cases hcond : attempt = mr ∨ isRetriable code msg = false
      · rw [fetchLoop_step_stop env mr page attempt fuel waits code msg ha hcond] at hres
        exact absurd hres (by simp)
      · rcases not_or.mp hcond with ⟨hne, hrf⟩
        have hr : isRetriable code msg = true :=
          (Bool.eq_false_or_eq_true _).resolve_right hrf
        rw [fetchLoop_step_retriable env mr page attempt fuel waits code msg ha hr hne]
          at hres
        rcases fetchLoop_ok env mr page fuel (attempt + 1) (waits ++ [500 * attempt]) h hres
          with ⟨a, ha1, ha2, ha3⟩
        exact ⟨a, by omega, by omega, ha3⟩

/-- C6.  fetchPageHtml retries only retriable failures, waiting 500·attempt
ms (linear backoff) between attempts, up to maxRetries attempts: in the
scenario where attempts 1 and 2 fail retriably and attempt 3 succeeds,
exactly the two waits 500·1 and 500·2 occur and attempt 3's content is
returned; a non-retriable first failure produces the single FetchError with
the page number and cause immediately; and a success result always is the
content of some attempt — no failure is ever surfaced as success. -/
theorem fetchPageHtml_retry_spec (env : Nat → FetchOutcome) (page : Nat) :
    (∀ h c1 m1 c2 m2,
      env 1 = .err c1 m1 → isRetriable c1 m1 = true →
      env 2 = .err c2 m2 → isRetriable c2 m2 = true →
      env 3 = .ok h →
      fetchPageHtml env 3 page = (Except.ok h, [500 * 1, 500 * 2])) ∧
    (∀ c m mr, env 1 = .err c m → isRetriable c m = false → 1 ≤ mr →
      fetchPageHtml env mr page =
        (Except.error ⟨page, c, friendlyMessage page c m⟩, [])) ∧
    (∀ mr h, (fetchPageHtml env mr page).1 = Except.ok h →
      ∃ a, 1 ≤ a ∧ a ≤ mr ∧ env a = .ok h) := by
  refine ⟨?_, ?_, ?_⟩
  · intro h c1 m1 c2 m2 h1 hr1 h2 hr2 h3
    show fetchLoop env 3 page 1 (2 + 1) [] = (Except.ok h, [500 * 1, 500 * 2])
    rw [fetchLoop_step_retriable env 3 page 1 2 [] c1 m1 h1 hr1 (by omega)]
    show fetchLoop env 3 page 2 (1 + 1) [500 * 1] = (Except.ok h, [500 * 1, 500 * 2])
    rw [fetchLoop_step_retriable env 3 page 2 1 [500 * 1] c2 m2 h2 hr2 (by omega)]
    show fetchLoop env 3 page 3 (0 + 1) [500 * 1, 500 * 2] =
      (Except.ok h, [500 * 1, 500 * 2])
    rw [fetchLoop_step_ok env 3 page 3 0 [500 * 1, 500 * 2] h h3]
  · intro c m mr h1 hr hmr
    rcases mr with _ | k
    · exact absurd hmr (by omega)
    · show fetchLoop env (k + 1) page 1 (k + 1) [] = _
      rw [fetchLoop_step_stop env (k + 1) page 1 k [] c m h1 (Or.inr hr)]
  · intro mr h hres
    rcases fetchLoop_ok env mr page mr 1 [] h hres with ⟨a, ha1, ha2, ha3⟩
    exact ⟨a, ha1, by omega, ha3⟩

/-- C6 witness: the scenario and the non-retriable case at concrete
environments. -/
theorem fetchPageHtml_retry_spec_witness :
    fetchPageHtml
      (fun a => if a = 1 then .err (some "ETIMEDOUT") "timeout of 30000ms exceeded"
        else if a = 2 then .err none "socket hang up"
        else .ok { paginationLinks := [], captionText := "", postContents := [] }) 3 7 =
      (Except.ok { paginationLinks := [], captionText := "", postContents := [] },
       [500, 1000]) ∧
    fetchPageHtml (fun _ => .err (some "ERR_BAD_REQUEST") "Request failed with status code 404") 3 9 =
      (Except.error ⟨9, some "ERR_BAD_REQUEST",
        friendlyMessage 9 (some "ERR_BAD_REQUEST") "Request failed with status code 404"⟩, []) := by
  constructor
  · exact (fetchPageHtml_retry_spec
      (fun a => if a = 1 then .err (some "ETIMEDOUT") "timeout of 30000ms exceeded"
        else if a = 2 then .err none "socket hang up"
        else .ok { paginationLinks := [], captionText := "", postContents := [] }) 7).1
      { paginationLinks := [], captionText := "", postContents := [] }
      (some "ETIMEDOUT") "timeout of 30000ms exceeded" none "socket hang up"
      rfl (by decide) rfl (by decide) rfl
  · exact (fetchPageHtml_retry_spec
      (fun _ => .err (some "ERR_BAD_REQUEST") "Request failed with status code 404") 9).2.1
      (some "ERR_BAD_REQUEST") "Request failed with status code 404" 3
      rfl (by decide) (by omega)

/-!  Orchestrator lemmas. -/

theorem scrapePages_all_ok (env : ScrapeEnv) :
    ∀ (fuel p : Nat) (acc : List Donation) (f : List Nat),
    (∀ q, p ≤ q → q < p + fuel → ∃ mq, env.fetchPage q = Except.ok mq) →
    ∃ ds, scrapePages env p fuel acc f = (Except.ok ds, ds, f ++ List.range' p fuel)
  | 0, p, acc, f, _ => ⟨acc, by simp [scrapePages]⟩
  | fuel + 1, p, acc, f, h => by
    rcases h p (Nat.le_refl p) (by omega) with ⟨m, hm⟩
    rcases scrapePages_all_ok env fuel (p + 1) (acc ++ extractDonationsFromHtml m) (f ++ [p])
      (fun q hq1 hq2 => h q (by omega) (by omega)) with ⟨ds, hds⟩
    refine ⟨ds, ?_⟩
    have e1 : scrapePages env p (fuel + 1) acc f =
        match env.fetchPage p with
        | .error e => (Except.error e, acc, f ++ [p])
        | .ok m => scrapePages env (p + 1) fuel (acc ++ extractDonationsFromHtml m)
            (f ++ [p]) := rfl
    rw [e1]
    simp only [hm]
    rw [hds, List.range'_succ]
    simp

/-- C5.  With a populated cache younger than the TTL, scrapeAllDonations
returns the cached sequence unchanged and fetches no page at all; with an
empty cache, or one whose age is at or above the TTL, and all fetches
succeeding, it resolves the page count once from page 1's markup and
fetches exactly the pages 1..effectivePages, where effectivePages is capped
by the maxPages option when set. -/
theorem scrapeAllDonations_cache_spec (opts : ScrapeOptions) (env : ScrapeEnv)
    (st : ScraperState) :
    (∀ cached, st.cache.donations = some cached →
      env.now - st.cache.timestamp < opts.cacheTtl →
      scrapeAllDonations opts env st =
        (Except.ok cached, { st with donations := cached }, [])) ∧
    (∀ m1, (st.cache.donations = none ∨ opts.cacheTtl ≤ env.now - st.cache.timestamp) →
      env.fetchPage 1 = Except.ok m1 →
      (∀ q, 2 ≤ q → q ≤ effPages opts (determineTotalPages m1) →
        ∃ mq, env.fetchPage q = Except.ok mq) →
      (scrapeAllDonations opts env st).2.2 =
        1 :: List.range' 2 (effPages opts (determineTotalPages m1) - 1) ∧
      (∀ cap, opts.maxPages = some cap →
        effPages opts (determineTotalPages m1) ≤ cap)) := by
  constructor
  · intro cached hc hlt
    unfold scrapeAllDonations
    simp only [hc]
    rw [if_pos hlt]
  · intro m1 hmiss h1 hrest
    have hfresh : scrapeAllDonations opts env st = scrapeFresh opts env st := by
      unfold scrapeAllDonations
      rcases hc : st.cache.donations with _ | cached
      · rfl
      · have hnot : ¬ (env.now - st.cache.timestamp < opts.cacheTtl) := by
          rcases hmiss with hnone | httl
          · rw [hc] at hnone
            exact absurd hnone (by simp)
          · omega
        show (if env.now - st.cache.timestamp < opts.cacheTtl then
            (Except.ok cached, { st with donations := cached }, ([] : List Nat))
          else scrapeFresh opts env st) = scrapeFresh opts env st
        rw [if_neg hnot]
    rcases scrapePages_all_ok env (effPages opts (determineTotalPages m1) - 1) 2
        (extractDonationsFromHtml m1) [1]
        (fun q hq1 hq2 => hrest q hq1 (by omega)) with ⟨ds, hds⟩
    constructor
    · rw [hfresh]
      unfold scrapeFresh
      simp only [h1, hds]
      rfl
    · intro cap hcap
      unfold effPages
      rw [hcap]
      exact Nat.min_le_right _ _

/-- C5 witness: a warm cache performs zero fetches and returns the cached
list; a cold cache on a single-page thread fetches exactly page 1. -/
theorem scrapeAllDonations_cache_spec_witness :
    scrapeAllDonations {} ⟨10, 20, fun _ => Except.ok ⟨[], "", []⟩⟩ ⟨[], ⟨some [], 5⟩⟩ =
      (Except.ok [], ⟨[], ⟨some [], 5⟩⟩, []) ∧
    (scrapeAllDonations {} ⟨10, 20, fun _ => Except.ok ⟨[], "", []⟩⟩ ⟨[], ⟨none, 0⟩⟩).2.2 =
      1 :: List.range' 2 (effPages {} (determineTotalPages ⟨[], "", []⟩) - 1) := by
  constructor
  · exact (scrapeAllDonations_cache_spec {} ⟨10, 20, fun _ => Except.ok ⟨[], "", []⟩⟩
      ⟨[], ⟨some [], 5⟩⟩).1 [] rfl (by decide)
  · exact ((scrapeAllDonations_cache_spec {} ⟨10, 20, fun _ => Except.ok ⟨[], "", []⟩⟩
      ⟨[], ⟨none, 0⟩⟩).2 ⟨[], "", []⟩ (Or.inl rfl) rfl
      (fun q hq1 hq2 => ⟨⟨[], "", []⟩, rfl⟩)).1

theorem scrapeFresh_error_cache (opts : ScrapeOptions) (env : ScrapeEnv)
    (st : ScraperState) (res : Except FetchErr (List Donation)) (st' : ScraperState)
    (tr : List Nat) (hs : scrapeFresh opts env st = (res, st', tr)) (e : FetchErr)
    (hres : res = Except.error e) : st'.cache = st.cache := by
  unfold scrapeFresh at hs
  rcases h1 : env.fetchPage 1 with e1 | m1
  · simp only [h1] at hs
    have hst : st' = st := congrArg (fun x => x.2.1) hs.symm
    rw [hst]
  · simp only [h1] at hs
    rcases hsp : scrapePages env 2 (effPages opts (determineTotalPages m1) - 1)
        (extractDonationsFromHtml m1) [1] with ⟨r, acc, f⟩
    rcases r with e2 | ds
    · simp only [hsp] at hs
      have hst : st' = { st with donations := acc } := congrArg (fun x => x.2.1) hs.symm
      rw [hst]
    · simp only [hsp] at hs
      have hok : res = Except.ok (sortDonations ds) := congrArg (fun x => x.1) hs.symm
      rw [hres] at hok
      exact absurd hok (by simp)

/-- C7.  If a scrape cycle fails (its result is a FetchError, in particular
after a page's fetch exhausted its retries), the cache — contents and
timestamp — is exactly what it was before the cycle, and the failing cycle
returns no donation list to its caller. -/
theorem scrapeAllDonations_error_keeps_cache (opts : ScrapeOptions) (env : ScrapeEnv)
    (st : ScraperState) (res : Except FetchErr (List Donation)) (st' : ScraperState)
    (tr : List Nat) (hs : scrapeAllDonations opts env st = (res, st', tr)) (e : FetchErr)
    (hres : res = Except.error e) : st'.cache = st.cache := by
  unfold scrapeAllDonations at hs
  rcases hc : st.cache.donations with _ | cached
  · rw [hc] at hs
    exact scrapeFresh_error_cache opts env st res st' tr hs e hres
  · rw [hc] at hs
    have hs2 : (if env.now - st.cache.timestamp < opts.cacheTtl then
        (Except.ok cached, { st with donations := cached }, ([] : List Nat))
      else scrapeFresh opts env st) = (res, st', tr) := hs
    by_cases hlt : env.now - st.cache.timestamp < opts.cacheTtl
    · rw [if_pos hlt] at hs2
      have hok : res = Except.ok cached := congrArg (fun x => x.1) hs2.symm
      rw [hres] at hok
      exact absurd hok (by simp)
    · rw [if_neg hlt] at hs2
      exact scrapeFresh_error_cache opts env st res st' tr hs2 e hres

/-- C7 witness: a cycle whose page-2 fetch fails, run over an expired
populated cache, leaves that cache untouched. -/
theorem scrapeAllDonations_error_keeps_cache_witness :
    ((scrapeAllDonations {}
        ⟨2000000, 2000001,
         fun q => if q = 1
           then Except.ok ⟨[{ text := "2", href := none }], "", []⟩
           else Except.error ⟨q, some "ETIMEDOUT", "timeout"⟩⟩
        ⟨[], ⟨some [], 0⟩⟩).2.1).cache = (⟨[], ⟨some [], 0⟩⟩ : ScraperState).cache :=
  scrapeAllDonations_error_keeps_cache {}
    ⟨2000000, 2000001,
     fun q => if q = 1
       then Except.ok ⟨[{ text := "2", href := none }], "", []⟩
       else Except.error ⟨q, some "ETIMEDOUT", "timeout"⟩⟩
    ⟨[], ⟨some [], 0⟩⟩ _ _ _ rfl ⟨2, some "ETIMEDOUT", "timeout"⟩ rfl
